import Mathlib

/-!
Verification of the slamdunk bucket auditor core (Go sources) via a shallow
embedding. The definitions below are translated from the repository sources:
`resolver.go` (Resolver pipeline), `s3_utils.go` (HeadBucket /
CheckBucketExists), the playbook (PutObject write probe) and the Auditor
(`NewAuditor` / `Run`). Network effects (HTTP responses, DNS CNAME lookups,
SDK error outcomes) are modelled as explicit environment values supplied to
each call.
-/

namespace Slamdunk

/-! ### Go string helpers

List-of-character implementations of the `strings` package functions used by
the source: `Contains`, `HasPrefix`-style tests, `TrimPrefix`, `TrimSuffix`.
`trimSuf` removes a single occurrence of the suffix, exactly like Go's
`strings.TrimSuffix`.
-/

/-- Boolean test that `n` is a leading segment of `h`. -/
def isPreList : List Char → List Char → Bool
  | [], _ => true
  | _ :: _, [] => false
  | a :: as, b :: bs => a == b && isPreList as bs

/-- Go `strings.Contains` on character lists: some tail of `h` starts with `n`. -/
def containsList (n : List Char) : List Char → Bool
  | [] => isPreList n []
  | l@(_ :: t) => isPreList n l || containsList n t

/-- Go `strings.Contains`. -/
def strContains (s pat : String) : Bool := containsList pat.data s.data

/-- Go `strings.HasPrefix`. -/
def hasPre (s p : String) : Bool := isPreList p.data s.data

/-- Go `strings.HasSuffix`. -/
def hasSuf (s p : String) : Bool := isPreList p.data.reverse s.data.reverse

/-- Drop a leading segment when present, else identity. -/
def dropPreL (n h : List Char) : List Char :=
  if isPreList n h then h.drop n.length else h

/-- Go `strings.TrimPrefix`. -/
def trimPre (s p : String) : String := ⟨dropPreL p.data s.data⟩

/-- Go `strings.TrimSuffix` (removes one trailing occurrence when present). -/
def trimSuf (s p : String) : String :=
  ⟨(dropPreL p.data.reverse s.data.reverse).reverse⟩

/-! ### Regex engine

The source compiles two fixed patterns with Go's `regexp` package and calls
`FindStringSubmatch`. Go regexps return the leftmost match, with the capture
assignment a backtracking (Perl-style, greedy) search would find first. The
two patterns only use literal characters, the wildcard `.`, and greedy
one-or-more character classes `[^.]+` / `[^/]+` as capture groups, so we
implement exactly that fragment: leftmost starting position, and within it a
greedy backtracking assignment for each group.
-/

inductive RItem where
  | lit : Char → RItem
  | dot : RItem
  | grp : (Char → Bool) → RItem

/-- Length of the longest leading run of characters satisfying `p`. -/
def takeWhileLen (p : Char → Bool) : List Char → Nat
  | [] => 0
  | c :: s => if p c then takeWhileLen p s + 1 else 0

/-- Anchored matcher: try to match `items` at the head of `s`, returning the
group captures. Greedy groups try their longest feasible length first and
backtrack. `fuel` only bounds the recursion depth; one unit is consumed per
pattern item, so any `fuel > items.length` is enough. -/
def reMatch : Nat → List RItem → List Char → Option (List (List Char))
  | 0, _, _ => none
  | _ + 1, [], _ => some []
  | _ + 1, .lit _ :: _, [] => none
  | fuel + 1, .lit c :: rest, d :: s =>
      if d == c then reMatch fuel rest s else none
  | _ + 1, .dot :: _, [] => none
  | fuel + 1, .dot :: rest, _ :: s => reMatch fuel rest s
  | fuel + 1, .grp p :: rest, s =>
      let m := takeWhileLen p s
      ((List.range m).reverse.map (· + 1)).findSome? fun k =>
        match reMatch fuel rest (s.drop k) with
        | some caps => some (s.take k :: caps)
        | none => none

/-- Unanchored search: leftmost starting position wins, like Go's
`FindStringSubmatch`. -/
def reFindAux (items : List RItem) : List Char → Option (List (List Char))
  | [] => reMatch (items.length + 2) items []
  | s@(_ :: t) =>
      match reMatch (items.length + 2) items s with
      | some caps => some caps
      | none => reFindAux items t

def reFind (items : List RItem) (s : List Char) : Option (List (List Char)) :=
  reFindAux items s

/-- Literal run of pattern items from a string. -/
def lits (s : String) : List RItem := s.data.map .lit

/-- Items of the first CNAME pattern from `resolver.go`:
`s3-(?P<region>[^.]+).amazonaws.com/(?P<bucket>[^/]+)` (dots unescaped, so
they are wildcards). -/
def expr1Items : List RItem :=
  [.lit 's', .lit '3', .lit '-', .grp (fun c => c ≠ '.'), .dot] ++
    lits "amazonaws" ++ [.dot] ++ lits "com" ++ [.lit '/', .grp (fun c => c ≠ '/')]

/-- Items of the second CNAME pattern from `resolver.go`:
`(?P<bucket>[^/]+).s3.(?P<region>[^.]+).amazonaws.com`. -/
def expr2Items : List RItem :=
  [.grp (fun c => c ≠ '/'), .dot, .lit 's', .lit '3', .dot,
    .grp (fun c => c ≠ '.'), .dot] ++ lits "amazonaws" ++ [.dot] ++ lits "com"

/-- `expr1.FindStringSubmatch`: on a match, `(region, bucket)` captures. -/
def expr1Find (s : String) : Option (String × String) :=
  match reFind expr1Items s.data with
  | some [region, bucket] => some (⟨region⟩, ⟨bucket⟩)
  | _ => none

/-- `expr2.FindStringSubmatch`: on a match, `(bucket, region)` captures. -/
def expr2Find (s : String) : Option (String × String) :=
  match reFind expr2Items s.data with
  | some [bucket, region] => some (⟨bucket⟩, ⟨region⟩)
  | _ => none

/-! ### Data model (`resolver.go`) -/

/-- Sentinel `NoBucket` from `resolver.go`. -/
def NoBucket : String := "No bucket found"

/-- Sentinel `SomeBucket` from `resolver.go`. -/
def SomeBucket : String := "Some S3 Bucket"

/-- Sentinel `NoRegion` from `resolver.go`. -/
def NoRegion : String := "No region found"

/-- `ResolverStatus` from `resolver.go`. -/
structure ResolverStatus where
  Url : String
  Bucket : String
  Region : String
  Takeover : Bool
deriving DecidableEq, Repr

/-- `Resolver` aggregate from `resolver.go`. -/
structure Resolver where
  Buckets : List ResolverStatus
  UrlsProcessed : Nat
  UrlsFailed : Nat
  Endpoints : Nat
  TakeoverPossible : Nat
deriving DecidableEq, Repr

/-- `NewResolver` from `resolver.go`. -/
def newResolver : Resolver := ⟨[], 0, 0, 0, 0⟩

/-! ### S3 utilities (`s3_utils.go`) -/

/-- Outcome of one SDK `HeadBucket` call, as observed by the error handling in
`s3_utils.go`: no error, an `awserr.Error` carrying a code, or an error that
is not an `awserr.Error` (the type assertion fails). -/
inductive HBOutcome where
  | noError : HBOutcome
  | awsErr : String → HBOutcome
  | otherErr : HBOutcome
deriving DecidableEq, Repr

/-- `HeadBucket` from `s3_utils.go`, as a function of the SDK outcome and the
probed region. Mirrors the error-code branches exactly; note that both the
no-error case and the non-`awserr` case fall through to `return true`. -/
def headBucketGo (out : HBOutcome) (region : String) : Bool :=
  match out with
  | .noError => true
  | .otherErr => true
  | .awsErr code =>
      if code == "Forbidden" && region != "cn-north-1" && region != "cn-northwest-1" then
        true
      else if code == "NoSuchKey" then
        true
      else if code == "MissingEndpoint" || code == "MissingRegion" then
        false
      else
        false

/-- `GetRegions` from `s3_utils.go`: only the four uncommented regions. -/
def getRegions : List String :=
  ["us-east-2", "us-east-1", "us-west-1", "us-west-2"]

/-- The `for _, r := range GetRegions()` loop body of `CheckBucketExists`. -/
def checkRegionsLoop (hb : String → Bool) : List String → Bool × String
  | [] => (false, "")
  | r :: rest => if hb r then (true, r) else checkRegionsLoop hb rest

/-- `CheckBucketExists` from `s3_utils.go`, parameterized by a `HeadBucket`
oracle giving the SDK outcome for each `(bucket, region)` pair. -/
def checkBucketExists (hb : String → String → HBOutcome) (target region : String) :
    Bool × String :=
  if region == NoRegion || region == "" then
    checkRegionsLoop (fun r => headBucketGo (hb target r) r) getRegions
  else
    (headBucketGo (hb target region) region, region)

/-- Modelled from the spec: the `CheckBucketExists` contract claimed in §4.1
for a `NO_REGION`/empty hint, which is *not* in the source. The source has no
`GetBucketRegion` redirect helper; this definition follows the spec's words:
on success of the provider's `GetBucketRegion` lookup return
`(true, discovered_region)`, on any error `(false, "")`. -/
def checkBucketExistsSpecNoHint (getBucketRegion : Option String) : Bool × String :=
  match getBucketRegion with
  | some r => (true, r)
  | none => (false, "")

/-! ### URL helpers (`resolver.go`) -/

/-- `GenerateUrlPair` from `resolver.go`. Returns `(fullUrl, relativeUrl)`. -/
def generateUrlPair (url : String) : String × String :=
  if !strContains url "http" then
    ("http://" ++ url, url)
  else
    let rel :=
      if strContains url "http://" then trimPre url "http://"
      else if strContains url "https://" then trimPre url "https://"
      else ""
    (url, trimSuf rel "/")

/-- `GetCNAME` from `resolver.go`, as a function of the DNS lookup outcome
(`none` models a lookup error). The caller in `Resolve` discards the error,
so the error branches are modelled by returning the empty string. -/
def getCNAME (lookup : Option String) (url : String) : String :=
  match lookup with
  | none => ""
  | some cname =>
      let cname := trimSuf cname "."
      let url := trimSuf url "."
      if cname == "" || cname == url then "" else cname

/-! ### Environment of one `Resolve` call

All network observations made by one call: the HTTP response (or a transport
or body-read failure), the CNAME lookup outcome, and the per-region
`HeadBucket` SDK outcomes used by `CheckBucketExists`. The XML fields model
what `etree` extracts from the body: optional `Error` element with optional
`Code` / `BucketName` children, optional `ListBucketResult` with optional
`Name` child (`SelectElement` returns nil for a missing child, and calling
`.Text()` on nil panics). -/

structure XmlErrTag where
  code : Option String
  bucketName : Option String
deriving DecidableEq, Repr

structure XmlListTag where
  name : Option String
deriving DecidableEq, Repr

structure XmlDoc where
  errorTag : Option XmlErrTag
  listTag : Option XmlListTag
deriving DecidableEq, Repr

structure HttpResp where
  server : String
  amzRegion : String
  gup : String
  body : String
  xml : Option XmlDoc
deriving Repr

structure ResolveEnv where
  resp : Option HttpResp
  cname : Option String
  hb : String → String → HBOutcome

/-- Result of one `Resolve` call: normal return, error return, or a runtime
panic (nil-pointer dereference in the XML stage). -/
inductive StepResult where
  | ok : StepResult
  | errRes : StepResult
  | panicked : StepResult
deriving DecidableEq, Repr

/-! ### The Resolve pipeline (`resolver.go`), stage by stage -/

/-- Stage 1 (request headers) applied to the freshly initialized status. -/
def headersStage (relativeUrl : String) (resp : HttpResp) : ResolverStatus :=
  let st : ResolverStatus := ⟨relativeUrl, NoBucket, NoRegion, false⟩
  let st := if resp.server == "AmazonS3" then { st with Bucket := SomeBucket } else st
  if resp.amzRegion != "" then { st with Region := resp.amzRegion } else st

/-- The two regex applications of stage 2, in source order: `expr1` first,
`expr2` second (so `expr2`'s captures overwrite `expr1`'s when both match). -/
def applyRegex (cname : String) (st : ResolverStatus) : ResolverStatus :=
  let st1 :=
    match expr1Find cname with
    | some rb => { st with Region := rb.1, Bucket := rb.2 }
    | none => st
  match expr2Find cname with
  | some br => { st1 with Region := br.2, Bucket := br.1 }
  | none => st1

/-- The `us-east-1` defaulting step of stage 2 (`resolver.go` lines 184-187). -/
def applyDefault (st : ResolverStatus) : ResolverStatus :=
  if st.Bucket != NoBucket && st.Region == NoRegion then
    { st with Region := "us-east-1" }
  else st

/-- The `ListBucketResult` half of stage 4. `none` in the second component
models the panic when the `Name` child is missing. -/
def listStage (r : Resolver) (st : ResolverStatus) (doc : XmlDoc) :
    Resolver × Option ResolverStatus :=
  match doc.listTag with
  | none => (r, some st)
  | some lt =>
      match lt.name with
      | none => (r, none)
      | some nm => (r, some { st with Bucket := nm })

/-- Stage 4 (XML body): the `Error` element handling followed by the
`ListBucketResult` handling. `none` in the second component models the panics
on missing `Code` / `BucketName` / `Name` children. An unparsable body
(`xml = none`) skips the stage (`goto end`). -/
def xmlStage (r : Resolver) (st : ResolverStatus) (xml : Option XmlDoc) :
    Resolver × Option ResolverStatus :=
  match xml with
  | none => (r, some st)
  | some doc =>
      match doc.errorTag with
      | none => listStage r st doc
      | some et =>
          match et.code with
          | none => (r, none)
          | some code =>
              if code == "NoSuchBucket" then
                match et.bucketName with
                | none => (r, none)
                | some bn =>
                    listStage { r with TakeoverPossible := r.TakeoverPossible + 1 }
                      { st with Bucket := bn, Takeover := true } doc
              else if code == "PermanentRedirect" then
                match et.bucketName with
                | none => (r, none)
                | some bn => listStage r { st with Bucket := bn } doc
              else
                listStage r { st with Bucket := SomeBucket } doc

/-- The `end:` block of `Resolve`: bump `Endpoints` when a bucket (even the
`SomeBucket` sentinel) was identified, then append the status. -/
def finalize (r : Resolver) (st : ResolverStatus) : Resolver :=
  let r := if st.Bucket != NoBucket then { r with Endpoints := r.Endpoints + 1 } else r
  { r with Buckets := r.Buckets ++ [st] }

/-- Stage 3 (URL as bucket name): probe `CheckBucketExists(relativeUrl,
status.Region)` and on success adopt the URL as the bucket name. -/
def stage3 (st : ResolverStatus) (relativeUrl : String) (env : ResolveEnv) :
    ResolverStatus :=
  let probe := checkBucketExists env.hb relativeUrl st.Region
  if probe.1 then { st with Bucket := relativeUrl, Region := probe.2 } else st

/-- Stages 3 and 4 plus finalization (the `bodyCheck:` label onward). -/
def bodyCheck (r : Resolver) (st : ResolverStatus) (relativeUrl : String)
    (env : ResolveEnv) (resp : HttpResp) : Resolver × StepResult :=
  match xmlStage r (stage3 st relativeUrl env) resp.xml with
  | (r', none) => (r', .panicked)
  | (r', some st') => (finalize r' st', .ok)

/-- The early-return tail of the CNAME branch: takeover sniff on the body,
then `Endpoints` bump and append. -/
def takeoverAndRecord (r : Resolver) (st : ResolverStatus) (resp : HttpResp) :
    Resolver × StepResult :=
  let pr :=
    if strContains resp.body "NoSuchBucket" then
      ({ r with TakeoverPossible := r.TakeoverPossible + 1 }, { st with Takeover := true })
    else (r, st)
  ({ pr.1 with Endpoints := pr.1.Endpoints + 1, Buckets := pr.1.Buckets ++ [pr.2] }, .ok)

/-- Stage 2 (CNAME records) and everything after it. -/
def cnameStage (r : Resolver) (st : ResolverStatus) (relativeUrl : String)
    (env : ResolveEnv) (resp : HttpResp) : Resolver × StepResult :=
  let pc := getCNAME env.cname relativeUrl
  if strContains pc ".amazonaws.com" then
    let st := applyRegex pc st
    if st.Bucket == NoBucket then bodyCheck r st relativeUrl env resp
    else takeoverAndRecord r (applyDefault st) resp
  else bodyCheck r st relativeUrl env resp

/-- `Resolver.Resolve` from `resolver.go`, as one deterministic step over the
call's environment. Returns the updated aggregate and how the call ended. -/
def resolveStep (r : Resolver) (url : String) (env : ResolveEnv) :
    Resolver × StepResult :=
  if strContains url "amazonaws.com" then
    ({ r with UrlsFailed := r.UrlsFailed + 1 }, .errRes)
  else
    let relativeUrl := (generateUrlPair url).2
    match env.resp with
    | none => ({ r with UrlsFailed := r.UrlsFailed + 1 }, .errRes)
    | some resp =>
        let r := { r with UrlsProcessed := r.UrlsProcessed + 1 }
        if resp.gup != "" then
          ({ r with UrlsFailed := r.UrlsFailed + 1 }, .errRes)
        else
          cnameStage r (headersStage relativeUrl resp) relativeUrl env resp

/-- A whole run: fold `Resolve` over a sequence of URLs with their
environments, starting from any aggregate. -/
def runResolver (r : Resolver) : List (String × ResolveEnv) → Resolver
  | [] => r
  | (u, e) :: rest => runResolver (resolveStep r u e).1 rest

/-! ### OutputStats (`resolver.go`)

The write loop appends, for each recorded status with `!data.Takeover &&
data.Bucket != SomeBucket`, the line `data.Bucket + "\n"` to the output
file. We model the written lines. -/

/-- The body of `OutputStats`'s write loop, as a left fold translating the
`for _, data := range r.Buckets` loop. -/
def outputLinesLoop (acc : List String) : List ResolverStatus → List String
  | [] => acc
  | d :: rest =>
      if !d.Takeover && d.Bucket != SomeBucket then
        outputLinesLoop (acc ++ [d.Bucket ++ "\n"]) rest
      else
        outputLinesLoop acc rest

/-- Lines `OutputStats` appends to the file at `path`; `none` when no path is
given (the `if path != ""` guard). -/
def outputStatsLines (path : String) (r : Resolver) : Option (List String) :=
  if path != "" then some (outputLinesLoop [] r.Buckets) else none

/-! ### Playbook write probe (`PutObject` action callback)

From the playbook source (the MD5-poisoned presigned request version). The
environment records the outcomes of the three fallible steps: `Presign`
(`none` = error), `http.NewRequest` (`false` = error, in which case `req` is
nil and the `req.Header.Set` call on the *next* line panics before the error
is checked), and `http.DefaultClient.Do` (`none` = network error, in which
case `finalResp` is nil and `finalResp.StatusCode` panics — the code never
checks `Do`'s error). -/

structure PutObjectEnv where
  presign : Option String
  newRequestOk : Bool
  doStatus : Option Nat
deriving DecidableEq, Repr

/-- Outcome of a probe callback: a returned boolean, or a runtime panic. -/
inductive ProbeOutcome where
  | ret : Bool → ProbeOutcome
  | panicked : ProbeOutcome
deriving DecidableEq, Repr

/-- The `PutObject` action callback, step by step from the source. -/
def putObjectProbe (env : PutObjectEnv) : ProbeOutcome :=
  match env.presign with
  | none => .ret false
  | some _ =>
      if !env.newRequestOk then .panicked
      else
        match env.doStatus with
        | none => .panicked
        | some status => .ret (status == 200 || status == 400)

/-! ### Auditor (`NewAuditor` / `Run`)

`Results` is a Go map from bucket name to a map from action name to bool; we
model both as association lists with map-assignment update. The playbook is
modelled by its key set (a list of action names); each action's callback
outcome for the audited bucket is supplied by the environment. -/

/-- Names of the registered playbook actions (`NewPlayBook` keys). -/
def playbookNames : List String :=
  ["ListObjects", "PutObject", "GetBucketAcl", "PutBucketAcl",
    "GetBucketPolicy", "PutBucketPolicy", "GetBucketCors", "PutBucketCors",
    "GetBucketLogging", "GetBucketWebsite", "GetBucketVersioning",
    "GetBucketEncryption"]

/-- The playbook filtering of `NewAuditor`: an empty `actions` list keeps the
whole playbook; otherwise only the requested names that exist in the registry
are kept (unknown names are silently dropped, duplicates collapse since the
result is a map). -/
def newAuditorPlaybook (actions : List String) : List String :=
  if actions.isEmpty then playbookNames
  else playbookNames.filter (fun n => actions.contains n)

structure Auditor where
  Profile : String
  Playbook : List String
  Results : List (String × List (String × Bool))
deriving DecidableEq, Repr

/-- `NewAuditor` (playbook construction; the identity-probe printing has no
effect on the returned state). -/
def newAuditor (actions : List String) (profile : String) : Auditor :=
  { Profile := profile, Playbook := newAuditorPlaybook actions, Results := [] }

/-- Go map assignment `m[k] = v` on an association list. -/
def mapAssign (k : String) (v : List (String × Bool))
    : List (String × List (String × Bool)) → List (String × List (String × Bool))
  | [] => [(k, v)]
  | (k', v') :: rest =>
      if k' == k then (k, v) :: rest else (k', v') :: mapAssign k v rest

/-- Association-list lookup (Go map read). -/
def mapLookup (k : String) : List (String × List (String × Bool)) → Option (List (String × Bool))
  | [] => none
  | (k', v') :: rest => if k' == k then some v' else mapLookup k rest

/-- Environment of one `Auditor.Run` call: the `HeadBucket` oracle used by
`CheckBucketExists`, whether `s3.New` yields a usable client, and each
action callback's boolean for this bucket. -/
structure AuditEnv where
  hb : String → String → HBOutcome
  clientOk : Bool
  probe : String → Bool

/-- `Auditor.Run` from the auditor source: region discovery via
`CheckBucketExists(bucket, NoRegion)`, client construction, then one probe
per playbook action recorded under the bucket's key. -/
def auditorRun (a : Auditor) (bucket : String) (env : AuditEnv) :
    Except String Auditor :=
  let probe := checkBucketExists env.hb bucket NoRegion
  if !probe.1 then
    .error "Specified bucket does not exist in any region."
  else if !env.clientOk then
    .error "Could not instantiate new S3 client"
  else
    let audit := a.Playbook.map (fun name => (name, env.probe name))
    .ok { a with Results := mapAssign bucket audit a.Results }

/-- Whether an `Auditor.Run` call returned without error. -/
def exceptOk : Except String Auditor → Bool
  | .ok _ => true
  | .error _ => false

/-! ### Statement helpers and concrete environments -/

/-- The normalization named by the round-trip claim: strip a protocol
`http://` / `https://` leading segment and one trailing `/`. -/
def stripProtoSlash (s : String) : String :=
  let s :=
    if hasPre s "http://" then trimPre s "http://"
    else if hasPre s "https://" then trimPre s "https://"
    else s
  trimSuf s "/"

/-- The XML-supplied names of a parsed body avoid the `NoBucket` sentinel.
This is the spec's own non-collision requirement on sentinels; an HTTP body
is free to violate it, so invariants over XML-derived bucket names assume
it. -/
def xmlNamesOkB : Option XmlDoc → Bool
  | none => true
  | some d =>
      (match d.errorTag with
       | none => true
       | some et =>
          match et.bucketName with
          | none => true
          | some bn => bn != NoBucket) &&
      (match d.listTag with
       | none => true
       | some lt =>
          match lt.name with
          | none => true
          | some nm => nm != NoBucket)

/-- Non-collision condition for a whole call environment. -/
def envOkB (e : ResolveEnv) : Bool :=
  match e.resp with
  | none => true
  | some resp => xmlNamesOkB resp.xml

/-- Every recorded takeover status carries a bucket other than the
`NoBucket` sentinel. -/
def TakeoverSafe (r : Resolver) : Prop :=
  ∀ s ∈ r.Buckets, s.Takeover = true → s.Bucket ≠ NoBucket

/-- `HeadBucket` oracle of a bucket that no probed region reports. -/
def hbAbsent : String → String → HBOutcome := fun _ _ => .awsErr "NoSuchBucket"

/-- `HeadBucket` oracle of a bucket living in `eu-west-1`: its own region
answers without error, every other region reports a redirect. -/
def hbEuWest : String → String → HBOutcome :=
  fun _ r => if r == "eu-west-1" then .noError else .awsErr "PermanentRedirect"

/-- `HeadBucket` oracle of a bucket living in `us-west-1`. -/
def hbUsWest1 : String → String → HBOutcome :=
  fun _ r => if r == "us-west-1" then .noError else .awsErr "NoSuchBucket"

/-- `HeadBucket` oracle answering without error in both `us-east-1` and
`us-west-1` (e.g. `Forbidden`-style true answers can occur in several
regions): exercises the first-match selection of the enumeration. -/
def hbBoth : String → String → HBOutcome :=
  fun _ r =>
    if r == "us-east-1" || r == "us-west-1" then .noError
    else .awsErr "NoSuchBucket"

/-- Environment: `Server: AmazonS3` response whose body mentions
`NoSuchBucket`, behind a CNAME pointing into `amazonaws.com` that matches
neither bucket regex. -/
def envCnameSome : ResolveEnv :=
  { resp := some { server := "AmazonS3", amzRegion := "", gup := "",
                   body := "NoSuchBucket", xml := none },
    cname := some "foo.amazonaws.com", hb := hbAbsent }

/-- Environment: CNAME in virtual-host style `mybucket.s3.eu-west-1`. -/
def envCnameExample : ResolveEnv :=
  { resp := some { server := "", amzRegion := "", gup := "", body := "",
                   xml := none },
    cname := some "mybucket.s3.eu-west-1.amazonaws.com", hb := hbAbsent }

/-- Environment: CNAME whose regex captures are exactly the two sentinel
strings, exercising the `status.Bucket == NoBucket` escape of stage 2. -/
def envCnameCollision : ResolveEnv :=
  { resp := some { server := "", amzRegion := "", gup := "", body := "",
                   xml := none },
    cname := some "No bucket found.s3.No region found.amazonaws.com",
    hb := hbAbsent }

/-- Environment: XML error document with an `Error` element lacking a `Code`
child. -/
def envXmlNoCode : ResolveEnv :=
  { resp := some { server := "", amzRegion := "", gup := "", body := "",
                   xml := some { errorTag := some { code := none, bucketName := none },
                                 listTag := none } },
    cname := none, hb := hbAbsent }

/-- Environment: XML `NoSuchBucket` error lacking a `BucketName` child. -/
def envXmlNoName : ResolveEnv :=
  { resp := some { server := "", amzRegion := "", gup := "", body := "",
                   xml := some { errorTag := some { code := some "NoSuchBucket",
                                                    bucketName := none },
                                 listTag := none } },
    cname := none, hb := hbAbsent }

/-- Environment: XML `NoSuchBucket` error naming `deleted-bucket`. -/
def envXmlDeleted : ResolveEnv :=
  { resp := some { server := "", amzRegion := "", gup := "", body := "",
                   xml := some { errorTag := some { code := some "NoSuchBucket",
                                                    bucketName := some "deleted-bucket" },
                                 listTag := none } },
    cname := none, hb := hbAbsent }

/-- Audit environment used to instantiate the `Run` characterization: the
bucket is found in `us-east-2`, the client instantiates, `ListObjects` is
the only allowed action. -/
def envAuditW : AuditEnv :=
  { hb := fun _ r => if r == "us-east-2" then .noError else .awsErr "NoSuchBucket",
    clientOk := true,
    probe := fun n => n == "ListObjects" }

/-! ## Theorems -/

/-- The write loop of `OutputStats` emits, onto whatever was already
accumulated, exactly the qualifying statuses' lines in order. -/
theorem outputLinesLoop_eq (acc : List String) (l : List ResolverStatus) :
    outputLinesLoop acc l =
      acc ++ (l.filter fun d => !d.Takeover && d.Bucket != SomeBucket).map
        (fun d => d.Bucket ++ "\n") := by
  induction l generalizing acc with
  | nil => simp [outputLinesLoop]
  | cons d rest ih =>
      cases hd : (!d.Takeover && d.Bucket != SomeBucket) <;>
        simp [outputLinesLoop, hd, ih, List.filter_cons]

/-- `finalize` preserves the endpoint-count invariant. -/
theorem finalize_count (r : Resolver) (st : ResolverStatus)
    (h : r.Endpoints = r.Buckets.countP fun s => s.Bucket != NoBucket) :
    (finalize r st).Endpoints =
      (finalize r st).Buckets.countP fun s => s.Bucket != NoBucket := by
  unfold finalize
  cases hB : (st.Bucket != NoBucket) <;>
    simp [hB, List.countP_append, List.countP_cons, List.countP_nil, h]

/-- The CNAME early-return record preserves the endpoint-count invariant,
because on that path the status's bucket is never the `NoBucket` sentinel. -/
theorem takeoverAndRecord_count (r : Resolver) (st : ResolverStatus) (resp : HttpResp)
    (hst : (st.Bucket != NoBucket) = true)
    (h : r.Endpoints = r.Buckets.countP fun s => s.Bucket != NoBucket) :
    (takeoverAndRecord r st resp).1.Endpoints =
      (takeoverAndRecord r st resp).1.Buckets.countP fun s => s.Bucket != NoBucket := by
  unfold takeoverAndRecord
  cases hc : strContains resp.body "NoSuchBucket" <;>
    simp [hc, List.countP_append, List.countP_cons, List.countP_nil, hst, h]

/-- The XML stage never touches the `Endpoints` counter or the recorded
statuses (only `TakeoverPossible`). -/
theorem xmlStage_counters (r : Resolver) (st : ResolverStatus) (x : Option XmlDoc) :
    (xmlStage r st x).1.Endpoints = r.Endpoints ∧
      (xmlStage r st x).1.Buckets = r.Buckets := by
  unfold xmlStage listStage
  repeat' split
  all_goals exact ⟨rfl, rfl⟩

/-- `bodyCheck` preserves the endpoint-count invariant. -/
theorem bodyCheck_count (r : Resolver) (st : ResolverStatus) (relativeUrl : String)
    (env : ResolveEnv) (resp : HttpResp)
    (h : r.Endpoints = r.Buckets.countP fun s => s.Bucket != NoBucket) :
    (bodyCheck r st relativeUrl env resp).1.Endpoints =
      (bodyCheck r st relativeUrl env resp).1.Buckets.countP
        fun s => s.Bucket != NoBucket := by
  unfold bodyCheck
  rcases hx : xmlStage r (stage3 st relativeUrl env) resp.xml with ⟨r', ost⟩
  obtain ⟨h1, h2⟩ := xmlStage_counters r (stage3 st relativeUrl env) resp.xml
  rw [hx] at h1 h2
  cases ost with
  | none =>
      dsimp only at h1 h2 ⊢
      rw [h1, h2]
      exact h
  | some st' =>
      dsimp only at h1 h2 ⊢
      exact finalize_count r' st' (by rw [h1, h2]; exact h)

/-- `applyDefault` only touches the region. -/
theorem applyDefault_bucket (st : ResolverStatus) :
    (applyDefault st).Bucket = st.Bucket := by
  unfold applyDefault; split <;> rfl

/-- `cnameStage` preserves the endpoint-count invariant. -/
theorem cnameStage_count (r : Resolver) (st : ResolverStatus) (relativeUrl : String)
    (env : ResolveEnv) (resp : HttpResp)
    (h : r.Endpoints = r.Buckets.countP fun s => s.Bucket != NoBucket) :
    (cnameStage r st relativeUrl env resp).1.Endpoints =
      (cnameStage r st relativeUrl env resp).1.Buckets.countP
        fun s => s.Bucket != NoBucket := by
  unfold cnameStage
  dsimp only
  split
  · split
    · exact bodyCheck_count _ _ _ _ _ h
    · rename_i hbk
      refine takeoverAndRecord_count _ _ _ ?_ h
      rw [applyDefault_bucket]
      simpa using hbk
  · exact bodyCheck_count _ _ _ _ _ h

/-- One `Resolve` call preserves the endpoint-count invariant. -/
theorem resolveStep_count (r : Resolver) (url : String) (env : ResolveEnv)
    (h : r.Endpoints = r.Buckets.countP fun s => s.Bucket != NoBucket) :
    (resolveStep r url env).1.Endpoints =
      (resolveStep r url env).1.Buckets.countP fun s => s.Bucket != NoBucket := by
  unfold resolveStep
  dsimp only
  split
  · exact h
  · split
    · exact h
    · split
      · exact h
      · exact cnameStage_count _ _ _ _ _ h

/-- Any run from any aggregate preserves the endpoint-count invariant. -/
theorem runResolver_count (steps : List (String × ResolveEnv)) (r : Resolver)
    (h : r.Endpoints = r.Buckets.countP fun s => s.Bucket != NoBucket) :
    (runResolver r steps).Endpoints =
      (runResolver r steps).Buckets.countP fun s => s.Bucket != NoBucket := by
  induction steps generalizing r with
  | nil => exact h
  | cons p rest ih =>
      rw [runResolver]
      exact ih _ (resolveStep_count _ _ _ h)

/-- C4: after any sequence of `Resolve` calls on a freshly constructed
`Resolver` — whatever the HTTP, DNS and `HeadBucket` observations — the
`Endpoints` counter equals the number of recorded statuses whose `Bucket`
differs from the `NoBucket` sentinel: the counter is bumped exactly for
appended statuses with a non-sentinel bucket, on the CNAME early-return path
and the finalization path alike. -/
theorem endpoints_eq_count_named_buckets (steps : List (String × ResolveEnv)) :
    (runResolver newResolver steps).Endpoints =
      (runResolver newResolver steps).Buckets.countP
        fun s => s.Bucket != NoBucket :=
  runResolver_count steps newResolver rfl

/-- Stage 1 never marks a takeover. -/
theorem headersStage_takeover (relativeUrl : String) (resp : HttpResp) :
    (headersStage relativeUrl resp).Takeover = false := by
  unfold headersStage
  dsimp only
  split <;> split <;> rfl

/-- The stage-2 regexes never touch the takeover flag. -/
theorem applyRegex_takeover (cname : String) (st : ResolverStatus) :
    (applyRegex cname st).Takeover = st.Takeover := by
  unfold applyRegex
  dsimp only
  split <;> split <;> rfl

/-- Stage 3 never touches the takeover flag. -/
theorem stage3_takeover (st : ResolverStatus) (relativeUrl : String)
    (env : ResolveEnv) :
    (stage3 st relativeUrl env).Takeover = st.Takeover := by
  unfold stage3
  dsimp only
  split <;> rfl

/-- If the incoming status is not a takeover and the XML-supplied names avoid
the `NoBucket` sentinel, any status the XML stage emits satisfies the
takeover condition. -/
theorem xmlStage_safe (r : Resolver) (st : ResolverStatus) (x : Option XmlDoc)
    (hok : xmlNamesOkB x = true) (ht : st.Takeover = false) :
    ∀ st', (xmlStage r st x).2 = some st' → st'.Takeover = true →
      st'.Bucket ≠ NoBucket := by
  intro st' heq htk
  rcases x with _ | ⟨_ | ⟨_ | c, _ | bnv⟩, _ | ⟨_ | nmv⟩⟩ <;>
    simp only [xmlStage, listStage, Option.some.injEq] at heq <;>
    (try split at heq) <;>
    (try split at heq) <;>
    simp_all [xmlNamesOkB, bne_iff_ne] <;>
    (subst heq; simp_all)

/-- `finalize` appends exactly the finished status. -/
theorem finalize_buckets (r : Resolver) (st : ResolverStatus) :
    (finalize r st).Buckets = r.Buckets ++ [st] := by
  unfold finalize
  dsimp only
  split <;> rfl

/-- The CNAME early return appends exactly one status, with the bucket it was
given. -/
theorem takeoverAndRecord_buckets (r : Resolver) (st : ResolverStatus) (resp : HttpResp) :
    ∃ st2, (takeoverAndRecord r st resp).1.Buckets = r.Buckets ++ [st2] ∧
      st2.Bucket = st.Bucket := by
  cases hc : strContains resp.body "NoSuchBucket"
  · exact ⟨st, by simp [takeoverAndRecord, hc], rfl⟩
  · exact ⟨{ st with Takeover := true }, by simp [takeoverAndRecord, hc], rfl⟩

/-- `bodyCheck` preserves takeover-safety when the incoming status is not a
takeover and the XML names avoid the sentinel. -/
theorem bodyCheck_safe (r : Resolver) (st : ResolverStatus) (relativeUrl : String)
    (env : ResolveEnv) (resp : HttpResp)
    (hq : TakeoverSafe r) (ht : st.Takeover = false)
    (hok : xmlNamesOkB resp.xml = true) :
    TakeoverSafe (bodyCheck r st relativeUrl env resp).1 := by
  unfold bodyCheck
  rcases hx : xmlStage r (stage3 st relativeUrl env) resp.xml with ⟨r', ost⟩
  obtain ⟨h1, h2⟩ := xmlStage_counters r (stage3 st relativeUrl env) resp.xml
  rw [hx] at h1 h2
  dsimp only at h1 h2
  cases ost with
  | none =>
      dsimp only
      intro s hs
      rw [h2] at hs
      exact hq s hs
  | some st' =>
      dsimp only
      intro s hs htak
      rw [finalize_buckets, h2] at hs
      rcases List.mem_append.mp hs with hmem | hmem
      · exact hq s hmem htak
      · rw [List.mem_singleton] at hmem
        subst hmem
        refine xmlStage_safe r (stage3 st relativeUrl env) resp.xml hok ?_ s ?_ htak
        · rw [stage3_takeover]; exact ht
        · rw [hx]

/-- `cnameStage` preserves takeover-safety. -/
theorem cnameStage_safe (r : Resolver) (st : ResolverStatus) (relativeUrl : String)
    (env : ResolveEnv) (resp : HttpResp)
    (hq : TakeoverSafe r) (ht : st.Takeover = false)
    (hok : xmlNamesOkB resp.xml = true) :
    TakeoverSafe (cnameStage r st relativeUrl env resp).1 := by
  unfold cnameStage
  dsimp only
  split
  · split
    · exact bodyCheck_safe _ _ _ _ _ hq (by rw [applyRegex_takeover]; exact ht) hok
    · rename_i hbk
      obtain ⟨st2, hbuck, hbk2⟩ :=
        takeoverAndRecord_buckets r
          (applyDefault (applyRegex (getCNAME env.cname relativeUrl) st)) resp
      intro s hs htak
      rw [hbuck] at hs
      rcases List.mem_append.mp hs with hmem | hmem
      · exact hq s hmem htak
      · rw [List.mem_singleton] at hmem
        subst hmem
        rw [hbk2, applyDefault_bucket]
        simpa using hbk
  · exact bodyCheck_safe _ _ _ _ _ hq ht hok

/-- One `Resolve` call preserves takeover-safety under the non-collision
condition on the environment's XML names. -/
theorem resolveStep_safe (r : Resolver) (url : String) (env : ResolveEnv)
    (hq : TakeoverSafe r) (hok : envOkB env = true) :
    TakeoverSafe (resolveStep r url env).1 := by
  unfold resolveStep
  dsimp only
  split
  · exact hq
  · split
    · exact hq
    · rename_i resp heq
      split
      · exact hq
      · refine cnameStage_safe _ _ _ _ _ hq (headersStage_takeover _ _) ?_
        rw [envOkB, heq] at hok
        exact hok

/-- Any run from a takeover-safe aggregate stays takeover-safe. -/
theorem runResolver_safe (steps : List (String × ResolveEnv)) (r : Resolver)
    (hq : TakeoverSafe r) (hok : ∀ p ∈ steps, envOkB p.2 = true) :
    TakeoverSafe (runResolver r steps) := by
  induction steps generalizing r with
  | nil => exact hq
  | cons p rest ih =>
      rw [runResolver]
      exact ih _ (resolveStep_safe _ _ _ hq (hok p (List.mem_cons_self p rest)))
        (fun q hqmem => hok q (List.mem_cons_of_mem p hqmem))

/-- C1 counterexample: a run in which a recorded status has `Takeover = true`
while its bucket is the `SomeBucket` sentinel — the response carried
`Server: AmazonS3`, the CNAME pointed into `amazonaws.com` without matching
either regex, and the body contained `NoSuchBucket`. This refutes the claim
that a takeover status never carries the `SOME_BUCKET` sentinel. -/
theorem resolve_takeover_someBucket_counterexample :
    (runResolver newResolver [("foo.example.com", envCnameSome)]).Buckets =
      [⟨"foo.example.com", SomeBucket, "us-east-1", true⟩] ∧
    ((runResolver newResolver [("foo.example.com", envCnameSome)]).Buckets.any
      fun s => s.Takeover && s.Bucket == SomeBucket) = true :=
  ⟨rfl, rfl⟩

/-- C1 (amended): over any run in which the XML-supplied bucket names avoid
the `NoBucket` sentinel (the spec's own non-collision requirement), every
recorded status with `Takeover = true` has a bucket different from the
`NoBucket` sentinel. The bucket may still be the `SomeBucket` sentinel, as
the counterexample shows. -/
theorem resolve_takeover_bucket_not_noBucket (steps : List (String × ResolveEnv))
    (h : ∀ p ∈ steps, envOkB p.2 = true) :
    ∀ s ∈ (runResolver newResolver steps).Buckets, s.Takeover = true →
      s.Bucket ≠ NoBucket :=
  runResolver_safe steps newResolver (by intro s hs; exact absurd hs (List.not_mem_nil s)) h

/-- Witness for the amended C1: a concrete `NoSuchBucket` takeover run whose
recorded bucket is provably not the sentinel. -/
theorem resolve_takeover_bucket_not_noBucket_witness :
    (⟨"deleted.example.com", "deleted-bucket", NoRegion, true⟩ : ResolverStatus).Bucket ≠
      NoBucket :=
  resolve_takeover_bucket_not_noBucket [("deleted.example.com", envXmlDeleted)]
    (by intro p hp; rw [List.mem_singleton] at hp; subst hp; rfl)
    ⟨"deleted.example.com", "deleted-bucket", NoRegion, true⟩
    (by
      rw [show (runResolver newResolver [("deleted.example.com", envXmlDeleted)]).Buckets =
            [⟨"deleted.example.com", "deleted-bucket", NoRegion, true⟩] from rfl]
      exact List.mem_singleton.mpr rfl)
    rfl

/-- C10: a well-formed XML body whose `Error` element has no `Code` child
makes `Resolve`'s stage 4 dereference a nil element and panic, recording no
status; likewise a `NoSuchBucket` error with no `BucketName` child. -/
theorem resolve_xml_nil_deref_panics :
    (resolveStep newResolver "x.example.com" envXmlNoCode).2 = .panicked ∧
    (resolveStep newResolver "x.example.com" envXmlNoCode).1.Buckets = [] ∧
    (resolveStep newResolver "y.example.com" envXmlNoName).2 = .panicked :=
  ⟨rfl, rfl, rfl⟩

/-- C7: the MD5-poisoned `PutObject` probe returns true exactly for HTTP 200
and 400 responses and false for other statuses and earlier failures — but a
network error from `http.DefaultClient.Do` is never checked, so the nil
response is dereferenced and the probe panics instead of returning false. -/
theorem putObject_probe_behavior :
    putObjectProbe ⟨some "presigned-url", true, none⟩ = .panicked ∧
    putObjectProbe ⟨some "presigned-url", true, some 200⟩ = .ret true ∧
    putObjectProbe ⟨some "presigned-url", true, some 400⟩ = .ret true ∧
    putObjectProbe ⟨some "presigned-url", true, some 403⟩ = .ret false ∧
    putObjectProbe ⟨some "presigned-url", true, some 500⟩ = .ret false ∧
    putObjectProbe ⟨none, true, some 200⟩ = .ret false :=
  ⟨rfl, rfl, rfl, rfl, rfl, rfl⟩

/-- C3: the `HeadBucket` error-code decision table. No error means the bucket
exists; so do the `NoSuchKey` code and the `Forbidden` code — except that in
`cn-north-1` and `cn-northwest-1` a `Forbidden` answer counts as
nonexistent; `MissingEndpoint`, `MissingRegion` and every other code count
as nonexistent. -/
theorem headBucket_decision_table (region code : String)
    (h1 : code ≠ "Forbidden") (h2 : code ≠ "NoSuchKey")
    (h3 : code ≠ "MissingEndpoint") (h4 : code ≠ "MissingRegion") :
    headBucketGo .noError region = true ∧
    headBucketGo (.awsErr "NoSuchKey") region = true ∧
    headBucketGo (.awsErr "Forbidden") region =
      (region != "cn-north-1" && region != "cn-northwest-1") ∧
    headBucketGo (.awsErr "MissingEndpoint") region = false ∧
    headBucketGo (.awsErr "MissingRegion") region = false ∧
    headBucketGo (.awsErr code) region = false := by
  refine ⟨rfl, by simp [headBucketGo], ?_, by simp [headBucketGo], by simp [headBucketGo], ?_⟩
  · unfold headBucketGo
    cases hcn : (region != "cn-north-1" && region != "cn-northwest-1") <;>
      simp_all
  · unfold headBucketGo
    simp [h1, h2, h3, h4]

/-- Witness for C3 in a China region with an unlisted code. -/
theorem headBucket_decision_table_witness :
    headBucketGo .noError "cn-north-1" = true ∧
    headBucketGo (.awsErr "NoSuchKey") "cn-north-1" = true ∧
    headBucketGo (.awsErr "Forbidden") "cn-north-1" =
      ("cn-north-1" != "cn-north-1" && "cn-north-1" != "cn-northwest-1") ∧
    headBucketGo (.awsErr "MissingEndpoint") "cn-north-1" = false ∧
    headBucketGo (.awsErr "MissingRegion") "cn-north-1" = false ∧
    headBucketGo (.awsErr "NoSuchBucket") "cn-north-1" = false :=
  headBucket_decision_table "cn-north-1" "NoSuchBucket"
    (by decide) (by decide) (by decide) (by decide)

/-- Go map assignment stores the new value under its key. -/
theorem mapAssign_lookup_self (k : String) (v : List (String × Bool))
    (m : List (String × List (String × Bool))) :
    mapLookup k (mapAssign k v m) = some v := by
  induction m with
  | nil => simp [mapAssign, mapLookup]
  | cons p rest ih =>
      rcases p with ⟨k', v'⟩
      by_cases hk : k' = k
      · simp [mapAssign, mapLookup, hk]
      · have hk' : (k' == k) = false := by simp [hk]
        simp [mapAssign, mapLookup, hk', ih]

/-- Go map assignment leaves other keys untouched. -/
theorem mapAssign_lookup_other (k b : String) (v : List (String × Bool))
    (m : List (String × List (String × Bool))) (hb : b ≠ k) :
    mapLookup b (mapAssign k v m) = mapLookup b m := by
  have hbk : (k == b) = false := by simp [Ne.symm hb]
  induction m with
  | nil => simp [mapAssign, mapLookup, hbk]
  | cons p rest ih =>
      rcases p with ⟨k', v'⟩
      by_cases hk : k' = k
      · subst hk
        simp [mapAssign, mapLookup, hbk]
      · have hk' : (k' == k) = false := by simp [hk]
        simp [mapAssign, mapLookup, hk', ih]

/-- C8: `Auditor.Run` succeeds exactly when the region probe invoked with
`(bucket, NO_REGION)` reports the bucket exists and the S3 client
instantiates; on success the results map gains under the bucket's key
exactly one entry per playbook action carrying its probe's boolean (and no
others), leaving all other buckets' entries unchanged; on failure the
auditor state is unchanged (the error return carries no new state). -/
theorem auditorRun_characterization (a : Auditor) (bucket : String) (env : AuditEnv) :
    (exceptOk (auditorRun a bucket env) = true ↔
      ((checkBucketExists env.hb bucket NoRegion).1 = true ∧ env.clientOk = true)) ∧
    (∀ a', auditorRun a bucket env = .ok a' →
      mapLookup bucket a'.Results =
        some (a.Playbook.map fun n => (n, env.probe n)) ∧
      (∀ b, b ≠ bucket → mapLookup b a'.Results = mapLookup b a.Results) ∧
      a'.Playbook = a.Playbook ∧ a'.Profile = a.Profile) ∧
    (∀ n v, (n, v) ∈ (a.Playbook.map fun m => (m, env.probe m)) ↔
      (n ∈ a.Playbook ∧ v = env.probe n)) := by
  refine ⟨?_, ?_, ?_⟩
  · unfold auditorRun exceptOk
    cases hex : (checkBucketExists env.hb bucket NoRegion).1 <;>
      cases hcl : env.clientOk <;>
      simp [hex, hcl]
  · intro a' hok
    unfold auditorRun at hok
    dsimp only at hok
    cases hex : (checkBucketExists env.hb bucket NoRegion).1 <;>
      cases hcl : env.clientOk <;>
      simp [hex, hcl] at hok
    subst hok
    refine ⟨mapAssign_lookup_self _ _ _, ?_, rfl, rfl⟩
    intro b hb
    exact mapAssign_lookup_other _ _ _ _ hb
  · intro n v
    constructor
    · intro hmem
      rcases List.mem_map.mp hmem with ⟨m, hm, hEq⟩
      rcases Prod.mk.injEq .. ▸ hEq with ⟨h1, h2⟩
      exact ⟨h1 ▸ hm, h2.symm ▸ (by rw [h1])⟩
    · rintro ⟨hmem, rfl⟩
      exact List.mem_map.mpr ⟨n, hmem, rfl⟩

/-- Witness for C8: auditing `target` with the filtered two-action playbook
records exactly `ListObjects = true`, `PutObject = false`. -/
theorem auditorRun_characterization_witness :
    auditorRun (newAuditor ["ListObjects", "PutObject"] "default") "target" envAuditW =
      .ok { Profile := "default", Playbook := ["ListObjects", "PutObject"],
            Results := [("target", [("ListObjects", true), ("PutObject", false)])] } ∧
    mapLookup "target"
        [("target", [("ListObjects", true), ("PutObject", false)])] =
      some ((newAuditor ["ListObjects", "PutObject"] "default").Playbook.map
        fun n => (n, envAuditW.probe n)) :=
  ⟨rfl,
    ((auditorRun_characterization (newAuditor ["ListObjects", "PutObject"] "default")
      "target" envAuditW).2.1
      { Profile := "default", Playbook := ["ListObjects", "PutObject"],
        Results := [("target", [("ListObjects", true), ("PutObject", false)])] }
      rfl).1⟩

/-- The region loop of `CheckBucketExists`: success exactly when some listed
region's probe succeeds; the returned region is then a successful listed
region; otherwise the loop yields `(false, "")`. -/
theorem checkRegionsLoop_spec (f : String → Bool) (l : List String) :
    ((checkRegionsLoop f l).1 = true ↔ ∃ r ∈ l, f r = true) ∧
    ((checkRegionsLoop f l).1 = true →
      (checkRegionsLoop f l).2 ∈ l ∧ f (checkRegionsLoop f l).2 = true) ∧
    ((checkRegionsLoop f l).1 = false → checkRegionsLoop f l = (false, "")) := by
  induction l with
  | nil => simp [checkRegionsLoop]
  | cons r rest ih =>
      rcases ih with ⟨ih1, ih2, ih3⟩
      cases hr : f r
      · refine ⟨?_, ?_, ?_⟩
        · rw [checkRegionsLoop, hr]
          simp only [Bool.false_eq_true, if_false]
          rw [ih1]
          constructor
          · rintro ⟨q, hq, hfq⟩
            exact ⟨q, List.mem_cons_of_mem r hq, hfq⟩
          · rintro ⟨q, hq, hfq⟩
            rcases List.mem_cons.mp hq with hq | hq
            · subst hq; rw [hr] at hfq; exact absurd hfq (by simp)
            · exact ⟨q, hq, hfq⟩
        · rw [checkRegionsLoop, hr]
          simp only [Bool.false_eq_true, if_false]
          intro hone
          rcases ih2 hone with ⟨hmem, hval⟩
          exact ⟨List.mem_cons_of_mem r hmem, hval⟩
        · rw [checkRegionsLoop, hr]
          simp only [Bool.false_eq_true, if_false]
          exact ih3
      · refine ⟨?_, ?_, ?_⟩
        · rw [checkRegionsLoop, hr]
          simp only [if_true]
          exact ⟨fun _ => ⟨r, List.mem_cons_self r rest, hr⟩, fun _ => trivial⟩
        · rw [checkRegionsLoop, hr]
          simp only [if_true]
          exact fun _ => ⟨List.mem_cons_self r rest, hr⟩
        · rw [checkRegionsLoop, hr]
          simp

/-- The region loop returns the *first* listed region whose probe succeeds:
on success the list splits around the returned region with every earlier
probe false. -/
theorem checkRegionsLoop_first (f : String → Bool) (l : List String) :
    ∀ r, checkRegionsLoop f l = (true, r) →
      ∃ l1 l2, l = l1 ++ r :: l2 ∧ f r = true ∧ ∀ q ∈ l1, f q = false := by
  induction l with
  | nil =>
      intro r h
      rw [checkRegionsLoop] at h
      exact absurd h (by simp)
  | cons a rest ih =>
      intro r h
      rw [checkRegionsLoop] at h
      cases ha : f a
      · rw [ha] at h
        simp only [Bool.false_eq_true, if_false] at h
        obtain ⟨l1, l2, hl, hfr, hpre⟩ := ih r h
        refine ⟨a :: l1, l2, by rw [List.cons_append, hl], hfr, ?_⟩
        intro q hq
        rcases List.mem_cons.mp hq with hq | hq
        · rw [hq]; exact ha
        · exact hpre q hq
      · rw [ha] at h
        simp at h
        subst h
        exact ⟨[], rest, rfl, ha, by simp⟩

/-- C2 counterexample: a bucket living in `eu-west-1` (its own region's
`HeadBucket` answers with no error, every other region reports a redirect,
and the provider's `GetBucketRegion` lookup would discover `eu-west-1`).
The claimed contract returns `(true, "eu-west-1")`; the code, which never
calls `GetBucketRegion`, probes only its four enumerated US regions and
returns `(false, "")`. -/
theorem checkBucketExists_counterexample :
    checkBucketExists hbEuWest "mybucket" NoRegion = (false, "") ∧
    checkBucketExistsSpecNoHint (some "eu-west-1") = (true, "eu-west-1") ∧
    ((false, "") : Bool × String) ≠ (true, "eu-west-1") :=
  ⟨rfl, rfl, by decide⟩

/-- C2 (amended): with a `NO_REGION` or empty hint, `CheckBucketExists`
probes the four enumerated regions `us-east-2`, `us-east-1`, `us-west-1`,
`us-west-2` with `HeadBucket` in order: it returns true exactly when one of
them reports the bucket, and then reports the *first* such region — the
enumeration splits as `pre ++ returned :: suf` with every region in `pre`
probing false; when none reports it returns `(false, "")`.
`GetBucketRegion` is not involved. -/
theorem checkBucketExists_enumerates (hb : String → String → HBOutcome)
    (target hint : String) (h : hint = NoRegion ∨ hint = "") :
    ((checkBucketExists hb target hint).1 = true ↔
      ∃ r ∈ getRegions, headBucketGo (hb target r) r = true) ∧
    ((checkBucketExists hb target hint).1 = true →
      (checkBucketExists hb target hint).2 ∈ getRegions ∧
      headBucketGo (hb target (checkBucketExists hb target hint).2)
        (checkBucketExists hb target hint).2 = true) ∧
    (∀ r, checkBucketExists hb target hint = (true, r) →
      ∃ pre suf, getRegions = pre ++ r :: suf ∧
        headBucketGo (hb target r) r = true ∧
        ∀ q ∈ pre, headBucketGo (hb target q) q = false) ∧
    ((checkBucketExists hb target hint).1 = false →
      checkBucketExists hb target hint = (false, "")) := by
  have hcond : (hint == NoRegion || hint == "") = true := by
    rcases h with h | h <;> simp [h]
  have hrw : checkBucketExists hb target hint =
      checkRegionsLoop (fun r => headBucketGo (hb target r) r) getRegions := by
    unfold checkBucketExists
    rw [hcond]
    simp
  rw [hrw]
  obtain ⟨h1, h2, h3⟩ := checkRegionsLoop_spec
    (fun r => headBucketGo (hb target r) r) getRegions
  exact ⟨h1, h2, checkRegionsLoop_first _ _, h3⟩

/-- Witness for the amended C2: a bucket whose `HeadBucket` succeeds only in
`us-west-1` is reported found by the sentinel-hint probe; and with successes
in both `us-east-1` and `us-west-1` the probe returns `us-east-1`, the first
of the two in enumeration order, with the earlier `us-east-2` provably
probing false. -/
theorem checkBucketExists_enumerates_witness :
    (checkBucketExists hbUsWest1 "b" NoRegion).1 = true ∧
    checkBucketExists hbBoth "b" NoRegion = (true, "us-east-1") ∧
    (∃ pre suf, getRegions = pre ++ "us-east-1" :: suf ∧
      headBucketGo (hbBoth "b" "us-east-1") "us-east-1" = true ∧
      ∀ q ∈ pre, headBucketGo (hbBoth "b" q) q = false) :=
  ⟨((checkBucketExists_enumerates hbUsWest1 "b" NoRegion (Or.inl rfl)).1).mpr
      ⟨"us-west-1", by decide⟩,
    rfl,
    (checkBucketExists_enumerates hbBoth "b" NoRegion (Or.inl rfl)).2.2.1
      "us-east-1" rfl⟩

/-- C5 counterexample: the CNAME whose two captures are literally the
sentinel strings. The second regex matches (so "at least one pattern
matched" holds and the region capture leaves `Region` at the `NoRegion`
sentinel), yet the `status.Bucket == NoBucket` escape skips the `us-east-1`
defaulting: the recorded status keeps `NoRegion`. -/
theorem cname_default_counterexample :
    expr2Find "No bucket found.s3.No region found.amazonaws.com" =
      some (NoBucket, NoRegion) ∧
    (resolveStep newResolver "nob.example.com" envCnameCollision).1.Buckets =
      [⟨"nob.example.com", NoBucket, NoRegion, false⟩] ∧
    NoRegion ≠ "us-east-1" :=
  ⟨rfl, rfl, by decide⟩

/-- C5 (amended): whenever the second (virtual-host-style) pattern matches,
its captures override whatever the first pattern set; the CNAME
`mybucket.s3.eu-west-1.amazonaws.com` matches only the second pattern,
giving bucket `mybucket` and region `eu-west-1` end to end; and the
`us-east-1` default applies exactly to statuses with a non-`NoBucket`
bucket whose region is still the `NoRegion` sentinel (regardless of whether
a pattern matched). -/
theorem cname_regex_precedence (cname : String) (st st2 : ResolverStatus)
    (b reg : String) (hm : expr2Find cname = some (b, reg))
    (hbk2 : st2.Bucket ≠ NoBucket) (hrg2 : st2.Region = NoRegion) :
    ((applyRegex cname st).Bucket = b ∧ (applyRegex cname st).Region = reg) ∧
    expr1Find "mybucket.s3.eu-west-1.amazonaws.com" = none ∧
    expr2Find "mybucket.s3.eu-west-1.amazonaws.com" =
      some ("mybucket", "eu-west-1") ∧
    (resolveStep newResolver "assets.example.com" envCnameExample).1.Buckets =
      [⟨"assets.example.com", "mybucket", "eu-west-1", false⟩] ∧
    applyDefault st2 = { st2 with Region := "us-east-1" } ∧
    (∀ st3 : ResolverStatus, st3.Region ≠ NoRegion → applyDefault st3 = st3) := by
  refine ⟨?_, rfl, rfl, rfl, ?_, ?_⟩
  · cases e1 : expr1Find cname <;> simp [applyRegex, e1, hm]
  · simp [applyDefault, hbk2, hrg2]
  · intro st3 h3
    simp [applyDefault, h3]

/-- Witness for the amended C5 at the spec's own boundary example. -/
theorem cname_regex_precedence_witness :
    (applyRegex "mybucket.s3.eu-west-1.amazonaws.com"
        ⟨"u", NoBucket, NoRegion, false⟩).Bucket = "mybucket" ∧
    (applyRegex "mybucket.s3.eu-west-1.amazonaws.com"
        ⟨"u", NoBucket, NoRegion, false⟩).Region = "eu-west-1" ∧
    applyDefault ⟨"u", "b", NoRegion, false⟩ = ⟨"u", "b", "us-east-1", false⟩ := by
  obtain ⟨h1, -, -, -, h5, -⟩ :=
    cname_regex_precedence "mybucket.s3.eu-west-1.amazonaws.com"
      ⟨"u", NoBucket, NoRegion, false⟩ ⟨"u", "b", NoRegion, false⟩
      "mybucket" "eu-west-1" rfl (by decide) rfl
  exact ⟨h1.1, h1.2, h5.trans rfl⟩

/-- `isPreList` decides list prefixhood. -/
theorem isPreList_iff (n h : List Char) : isPreList n h = true ↔ n <+: h := by
  induction n generalizing h with
  | nil => simp [isPreList, List.nil_prefix]
  | cons a as ih =>
      cases h with
      | nil => simp [isPreList]
      | cons b bs => simp [isPreList, ih, List.cons_prefix_cons]

/-- A leading segment of the whole list makes `containsList` true. -/
theorem containsList_of_isPre (n h : List Char) (hp : isPreList n h = true) :
    containsList n h = true := by
  cases h with
  | nil => simpa [containsList] using hp
  | cons b bs => simp [containsList, hp]

/-- A prefix of a prefix is a prefix (on the Boolean test). -/
theorem isPreList_trans (a b c : List Char) (h1 : isPreList a b = true)
    (h2 : isPreList b c = true) : isPreList a c = true :=
  (isPreList_iff a c).mpr (((isPreList_iff a b).mp h1).trans ((isPreList_iff b c).mp h2))

/-- A string with no occurrence of the suffix is unchanged by `trimSuf`. -/
theorem trimSuf_of_noSuf (s p : String) (h : hasSuf s p = false) :
    trimSuf s p = s := by
  unfold trimSuf dropPreL
  unfold hasSuf at h
  rw [h]
  simp

/-- After stripping one leading slash (on the reversed list), no leading
slash remains unless the list began with a double slash. -/
theorem noSlash_after_trim (L : List Char)
    (hss : isPreList ['/', '/'] L = false) :
    isPreList ['/'] (dropPreL ['/'] L) = false := by
  unfold dropPreL
  cases hp : isPreList ['/'] L with
  | false => simpa using hp
  | true =>
      rcases L with _ | ⟨c, t⟩
      · simp [isPreList] at hp
      · have hceq : c = '/' := by
          have h0 : (('/' : Char) == c && true) = true := by
            simpa [isPreList] using hp
          have h1 : (('/' : Char) == c) = true := by simpa using h0
          exact (beq_iff_eq.mp h1).symm
        subst hceq
        simp only [if_pos rfl]
        have : isPreList ['/'] t = false := by
          simpa [isPreList] using hss
        simpa using this

/-- Removing one trailing slash leaves no trailing slash unless the string
ended in a double slash. -/
theorem hasSuf_trimSuf_slash (s : String) (hss : hasSuf s "//" = false) :
    hasSuf (trimSuf s "/") "/" = false := by
  show isPreList ['/'] ((dropPreL ['/'] s.data.reverse).reverse.reverse) = false
  rw [List.reverse_reverse]
  exact noSlash_after_trim s.data.reverse hss

/-- `trimSuf` only removes characters from the end. -/
theorem trimSuf_data_pre (s p : String) : (trimSuf s p).data <+: s.data := by
  show (dropPreL p.data.reverse s.data.reverse).reverse <+: s.data
  unfold dropPreL
  cases hc : isPreList p.data.reverse s.data.reverse
  · simp only [Bool.false_eq_true, if_false]
    rw [List.reverse_reverse]
  · simp only [if_pos rfl]
    have hsuf := List.drop_suffix p.data.reverse.length s.data.reverse
    have hrev := List.reverse_prefix.mpr hsuf
    simpa using hrev

/-- A leading segment that `s` lacks is still lacking after `trimSuf`. -/
theorem hasPre_trimSuf_false (s p q : String) (h : hasPre s q = false) :
    hasPre (trimSuf s p) q = false := by
  cases hq : hasPre (trimSuf s p) q
  · rfl
  · exfalso
    have h1 : isPreList q.data (trimSuf s p).data = true := hq
    have h2 : isPreList q.data s.data = true :=
      isPreList_trans _ _ _ h1 ((isPreList_iff _ _).mpr (trimSuf_data_pre s p))
    have h3 : hasPre s q = true := h2
    rw [h] at h3
    exact Bool.false_ne_true h3

/-- C6 counterexample: for the plain input `example.com/` (no protocol),
`GenerateUrlPair` keeps the trailing slash in `relative_url` — the
trailing-slash strip only runs on the branch for inputs containing `http` —
so stripping protocol and trailing slash from `full_url` does not reproduce
`relative_url`, `relative_url` ends in `/`, and the normalization is not
idempotent on it. -/
theorem generateUrlPair_roundtrip_counterexample :
    generateUrlPair "example.com/" = ("http://example.com/", "example.com/") ∧
    stripProtoSlash "http://example.com/" = "example.com" ∧
    ("example.com" : String) ≠ "example.com/" ∧
    hasSuf "example.com/" "/" = true ∧
    stripProtoSlash "example.com/" ≠ "example.com/" := by
  refine ⟨rfl, rfl, by decide, rfl, by decide⟩

/-- C6 (amended): for inputs that begin with `http://`, stripping the
protocol and one trailing slash from `full_url` does yield `relative_url`;
and when the part after the protocol neither ends in a double slash nor
itself begins with a protocol, `relative_url` has no trailing slash and the
normalization is idempotent on it. For inputs not containing `http`,
`full_url = "http://" + u` and `relative_url = u` with no trailing-slash
strip (the counterexample). -/
theorem generateUrlPair_roundtrip (u : String) (h : hasPre u "http://" = true) :
    stripProtoSlash (generateUrlPair u).1 = (generateUrlPair u).2 ∧
    (hasSuf (trimPre u "http://") "//" = false →
      hasSuf (generateUrlPair u).2 "/" = false) ∧
    (hasSuf (trimPre u "http://") "//" = false →
      hasPre (trimPre u "http://") "http://" = false →
      hasPre (trimPre u "http://") "https://" = false →
      stripProtoSlash (generateUrlPair u).2 = (generateUrlPair u).2) := by
  have hc1 : strContains u "http" = true :=
    containsList_of_isPre _ _
      (isPreList_trans _ _ _ (by decide) h)
  have hc2 : strContains u "http://" = true := containsList_of_isPre _ _ h
  have hgen : generateUrlPair u = (u, trimSuf (trimPre u "http://") "/") := by
    unfold generateUrlPair
    rw [hc1, hc2]
    simp
  rw [hgen]
  refine ⟨?_, ?_, ?_⟩
  · unfold stripProtoSlash
    rw [h]
    simp
  · intro hss
    exact hasSuf_trimSuf_slash _ hss
  · intro hss hp1 hp2
    unfold stripProtoSlash
    rw [hasPre_trimSuf_false _ _ _ hp1, hasPre_trimSuf_false _ _ _ hp2]
    exact trimSuf_of_noSuf _ _ (hasSuf_trimSuf_slash _ hss)

/-- Witness for the amended C6 at `http://example.com/`. -/
theorem generateUrlPair_roundtrip_witness :
    stripProtoSlash (generateUrlPair "http://example.com/").1 =
      (generateUrlPair "http://example.com/").2 ∧
    hasSuf (generateUrlPair "http://example.com/").2 "/" = false ∧
    stripProtoSlash (generateUrlPair "http://example.com/").2 =
      (generateUrlPair "http://example.com/").2 := by
  obtain ⟨h1, h2, h3⟩ := generateUrlPair_roundtrip "http://example.com/" rfl
  exact ⟨h1, h2 rfl, h3 rfl rfl rfl⟩

/-- C9: with an output path given, `OutputStats` appends exactly one line per
recorded status that is not a takeover and whose bucket is not the
`SomeBucket` sentinel, each line being that status's bucket string followed
by a newline, in recording order. -/
theorem outputStats_lines (path : String) (r : Resolver) (h : path ≠ "") :
    outputStatsLines path r =
      some ((r.Buckets.filter fun d => !d.Takeover && d.Bucket != SomeBucket).map
        (fun d => d.Bucket ++ "\n")) := by
  have hb : (path != "") = true := bne_iff_ne.mpr h
  simp [outputStatsLines, hb, outputLinesLoop_eq]

/-- Witness for C9 at a concrete aggregate: the named bucket is written, the
`SomeBucket` sentinel row and the takeover row are skipped. -/
theorem outputStats_lines_witness :
    outputStatsLines "out.txt"
        ⟨[⟨"u1", "alpha", NoRegion, false⟩, ⟨"u2", SomeBucket, NoRegion, false⟩,
          ⟨"u3", "beta", "us-east-1", true⟩], 3, 0, 3, 1⟩ =
      some ["alpha\n"] :=
  (outputStats_lines "out.txt"
    ⟨[⟨"u1", "alpha", NoRegion, false⟩, ⟨"u2", SomeBucket, NoRegion, false⟩,
      ⟨"u3", "beta", "us-east-1", true⟩], 3, 0, 3, 1⟩ (by decide)).trans rfl

end Slamdunk




